import Mathlib

/-
Verification of the web3_audit_scope_planner plan computer (src/app.py).

The program is a deterministic, stateless formula evaluator: per-track base
days are scaled by a style multiplier, by multiplicative feature adjustments,
by a maturity factor and by a team-size factor, rounded to one decimal place,
summed, and stably sorted in descending order.

Embedding choices:
  * Python floats are modelled by exact rationals (ℚ); decimal literals in
    the source denote the corresponding exact rationals.
  * Python's builtin round(x, 1) is modelled by round-half-to-even on the
    exact rational value, scaled by 10 (rndHalfEven / round1 below).
  * The Python dict base_days (string keys, fixed key set) is modelled by a
    function String → ℚ with pointwise update (updTD); the iteration order
    of TRACKS.items() is the insertion order of the TRACKS literal, modelled
    by the list TRACKS.
  * list.sort(key=..., reverse=True) is Timsort, a stable sort; it is
    modelled by the stable insertion sort sortDesc.
-/

namespace AuditPlanner

/-- Embeds the dataclass AuditTrack of src/app.py. -/
structure AuditTrack where
  key : String
  name : String
  base_days : ℚ
  description : String
deriving DecidableEq

/-- Embeds the TRACKS registry of src/app.py (a dict in insertion order). -/
def TRACKS : List AuditTrack := [
  ⟨"protocol", "Protocol & Soundness Review", 10.0,
    "Core protocol logic, liveness & safety properties, invariants."⟩,
  ⟨"circuits", "Circuits / Crypto Review", 12.0,
    "ZK/FHE circuits, gadgets, and cryptographic assumptions."⟩,
  ⟨"implementation", "Implementation Review", 14.0,
    "Smart contracts, on-chain logic, and critical off-chain components."⟩,
  ⟨"infra", "Infrastructure & DevOps Review", 6.0,
    "RPC, sequencers, key management, monitoring, and ops runbooks."⟩,
  ⟨"governance", "Governance & Upgradeability Review", 4.0,
    "Admin keys, upgrade paths, governance contracts and voting logic."⟩]

/-- Embeds the dataclass StyleProfile of src/app.py. -/
structure StyleProfile where
  key : String
  name : String
  description : String
  protocol_multiplier : ℚ
  circuits_multiplier : ℚ
  impl_multiplier : ℚ
  infra_multiplier : ℚ
  gov_multiplier : ℚ
deriving DecidableEq

/-- The "aztec" entry of the STYLES registry of src/app.py. -/
def aztec : StyleProfile :=
  ⟨"aztec", "Aztec-style privacy rollup",
    "Privacy-first zk rollup with encrypted state and complex circuits.",
    1.2, 1.5, 1.15, 1.1, 1.0⟩

/-- The "zama" entry of the STYLES registry of src/app.py. -/
def zama : StyleProfile :=
  ⟨"zama", "Zama-style FHE compute stack",
    "FHE-heavy stack where on-chain code interacts with encrypted compute.",
    1.15, 1.6, 1.1, 1.15, 1.0⟩

/-- The "soundness" entry of the STYLES registry of src/app.py. -/
def soundness : StyleProfile :=
  ⟨"soundness", "Soundness-first research lab",
    "Specification-driven protocols with an emphasis on formal soundness.",
    1.4, 1.2, 1.1, 1.0, 1.1⟩

/-- Embeds the STYLES registry of src/app.py (a dict in insertion order). -/
def STYLES : List StyleProfile := [aztec, zama, soundness]

/-- Pointwise update of the base_days dict: base_days[k] = v. -/
def updTD (d : String → ℚ) (k : String) (v : ℚ) : String → ℚ :=
  fun x => if x = k then v else d x

/-- The if/elif chain selecting the style multiplier for a track key
(lines 109-120 of src/app.py). -/
def style_multiplier_for (style : StyleProfile) (key : String) : ℚ :=
  if key = "protocol" then style.protocol_multiplier
  else if key = "circuits" then style.circuits_multiplier
  else if key = "implementation" then style.impl_multiplier
  else if key = "infra" then style.infra_multiplier
  else if key = "governance" then style.gov_multiplier
  else 1.0

/-- The initial base_days dict: for each track in catalog order,
base_days[key] = track.base_days * mult (lines 107-121 of src/app.py). -/
def initDays (style : StyleProfile) : String → ℚ :=
  TRACKS.foldl
    (fun d t => updTD d t.key (t.base_days * style_multiplier_for style t.key))
    (fun _ => 0)

/-- if uses_zk: base_days["circuits"] *= 1.25 (lines 124-125). -/
def stepZk (uses_zk : Bool) (d : String → ℚ) : String → ℚ :=
  if uses_zk then updTD d "circuits" (d "circuits" * 1.25) else d

/-- if uses_fhe: base_days["circuits"] *= 1.25; base_days["infra"] *= 1.15
(lines 126-128). -/
def stepFhe (uses_fhe : Bool) (d : String → ℚ) : String → ℚ :=
  if uses_fhe then
    let d1 := updTD d "circuits" (d "circuits" * 1.25)
    updTD d1 "infra" (d1 "infra" * 1.15)
  else d

/-- if has_bridge: base_days["protocol"] *= 1.20;
base_days["implementation"] *= 1.15 (lines 129-131). -/
def stepBridge (has_bridge : Bool) (d : String → ℚ) : String → ℚ :=
  if has_bridge then
    let d1 := updTD d "protocol" (d "protocol" * 1.20)
    updTD d1 "implementation" (d1 "implementation" * 1.15)
  else d

/-- if multi_chain: base_days["infra"] *= 1.20; base_days["protocol"] *= 1.10
(lines 132-134). -/
def stepMultiChain (multi_chain : Bool) (d : String → ℚ) : String → ℚ :=
  if multi_chain then
    let d1 := updTD d "infra" (d "infra" * 1.20)
    updTD d1 "protocol" (d1 "protocol" * 1.10)
  else d

/-- if has_governance: base_days["governance"] *= 1.5 (lines 135-136). -/
def stepGovernance (has_governance : Bool) (d : String → ℚ) : String → ℚ :=
  if has_governance then updTD d "governance" (d "governance" * 1.5) else d

/-- The feature-based adjustments, in source order: zk, fhe, bridge,
multi-chain, governance (lines 123-136 of src/app.py). -/
def featAdj (uses_zk uses_fhe has_bridge has_governance multi_chain : Bool)
    (d : String → ℚ) : String → ℚ :=
  stepGovernance has_governance
    (stepMultiChain multi_chain
      (stepBridge has_bridge
        (stepFhe uses_fhe
          (stepZk uses_zk d))))

/-- maturity_factors.get(maturity, 1.0) (lines 139-144 of src/app.py). -/
def maturity_factor (maturity : String) : ℚ :=
  if maturity = "idea" then 0.7
  else if maturity = "prototype" then 1.0
  else if maturity = "mainnet" then 1.2
  else 1.0

/-- The team-size classification (lines 150-155 of src/app.py). -/
def team_factor (team_size : ℤ) : ℚ :=
  if team_size ≤ 3 then 0.9
  else if team_size ≤ 8 then 1.0
  else 1.1

/-- The fully scaled (unrounded) days of each track: style-scaled base days,
feature adjustments, then every entry multiplied by m_factor (lines 145-146)
and by team_factor (lines 157-158). -/
def track_days (style : StyleProfile)
    (uses_zk uses_fhe has_bridge has_governance multi_chain : Bool)
    (m_factor t_factor : ℚ) : String → ℚ :=
  fun k =>
    featAdj uses_zk uses_fhe has_bridge has_governance multi_chain
      (initDays style) k * m_factor * t_factor

/-- Round-half-to-even of a rational to an integer; models the tie-breaking
behaviour of Python's builtin round on exact decimal values. -/
def rndHalfEven (q : ℚ) : ℤ :=
  let f : ℤ := q.num.fdiv q.den
  let tr : ℚ := q - (f : ℚ)
  if 2 * tr < 1 then f
  else if 1 < 2 * tr then f + 1
  else if f % 2 = 0 then f else f + 1

/-- round(x, 1) of src/app.py, on exact rationals. -/
def round1 (q : ℚ) : ℚ := (rndHalfEven (10 * q) : ℚ) / 10

/-- One entry of the tracks output list (lines 166-173 of src/app.py). -/
structure TrackOut where
  key : String
  name : String
  description : String
  estimatedDays : ℚ
deriving DecidableEq

/-- The tracks output list before sorting, built in catalog order with
rounded days (lines 161-173 of src/app.py). -/
def tracksOut (d : String → ℚ) : List TrackOut :=
  TRACKS.map fun t => ⟨t.key, t.name, t.description, round1 (d t.key)⟩

/-- Stable descending insertion: an element is placed before the first
entry whose estimatedDays does not exceed its own. -/
def insertDesc (x : TrackOut) : List TrackOut → List TrackOut
  | [] => [x]
  | y :: ys =>
    if y.estimatedDays ≤ x.estimatedDays then x :: y :: ys
    else y :: insertDesc x ys

/-- tracks_out.sort(key=lambda t: t["estimatedDays"], reverse=True)
(line 175 of src/app.py): a stable descending sort. -/
def sortDesc : List TrackOut → List TrackOut
  | [] => []
  | x :: xs => insertDesc x (sortDesc xs)

/-- key_order (line 178 of src/app.py). -/
def key_order : List String :=
  ["protocol", "circuits", "implementation", "infra", "governance"]

/-- The returned plan record (lines 181-195 of src/app.py). -/
structure AuditPlan where
  style : String
  styleName : String
  styleDescription : String
  usesZk : Bool
  usesFhe : Bool
  hasBridge : Bool
  hasGovernance : Bool
  multiChain : Bool
  teamSize : ℤ
  maturity : String
  tracks : List TrackOut
  totalEstimatedDays : ℚ
  suggestedOrder : List String
deriving DecidableEq

/-- Embeds compute_audit_plan of src/app.py. -/
def compute_audit_plan (style : StyleProfile)
    (uses_zk uses_fhe has_bridge has_governance multi_chain : Bool)
    (team_size : ℤ) (maturity : String) : AuditPlan :=
  let d := track_days style uses_zk uses_fhe has_bridge has_governance
    multi_chain (maturity_factor maturity) (team_factor team_size)
  let ts_out := tracksOut d
  let total_days : ℚ := (ts_out.map fun t => t.estimatedDays).sum
  let sorted := sortDesc ts_out
  let suggested := key_order.filter fun k => sorted.any fun t => t.key = k
  { style := style.key
    styleName := style.name
    styleDescription := style.description
    usesZk := uses_zk
    usesFhe := uses_fhe
    hasBridge := has_bridge
    hasGovernance := has_governance
    multiChain := multi_chain
    teamSize := team_size
    maturity := maturity
    tracks := sorted
    totalEstimatedDays := round1 total_days
    suggestedOrder := suggested }

/-- Position of a track key in the fixed catalog order. -/
def catalogIdx (k : String) : ℕ := key_order.findIdx fun x => x = k

/- ## Generic lemmas about the stable descending insertion sort -/

lemma mem_insertDesc (x a : TrackOut) (l : List TrackOut) :
    a ∈ insertDesc x l ↔ a = x ∨ a ∈ l := by
  induction l with
  | nil => simp [insertDesc]
  | cons y ys ih =>
    by_cases h : y.estimatedDays ≤ x.estimatedDays
    · simp [insertDesc, h]
    · simp [insertDesc, h, ih]
      tauto

lemma sum_insertDesc (f : TrackOut → ℚ) (x : TrackOut) (l : List TrackOut) :
    ((insertDesc x l).map f).sum = f x + (l.map f).sum := by
  induction l with
  | nil => simp [insertDesc]
  | cons y ys ih =>
    by_cases h : y.estimatedDays ≤ x.estimatedDays
    · simp [insertDesc, h]
    · simp [insertDesc, h, ih]
      ring

lemma sum_sortDesc (f : TrackOut → ℚ) (l : List TrackOut) :
    ((sortDesc l).map f).sum = (l.map f).sum := by
  induction l with
  | nil => rfl
  | cons x xs ih => simp [sortDesc, sum_insertDesc, ih]

lemma any_insertDesc (p : TrackOut → Bool) (x : TrackOut) (l : List TrackOut) :
    (insertDesc x l).any p = (p x || l.any p) := by
  induction l with
  | nil => simp [insertDesc]
  | cons y ys ih =>
    by_cases h : y.estimatedDays ≤ x.estimatedDays
    · simp [insertDesc, h]
    · simp [insertDesc, h, ih]
      cases p x <;> cases p y <;> simp

lemma any_sortDesc (p : TrackOut → Bool) (l : List TrackOut) :
    (sortDesc l).any p = l.any p := by
  induction l with
  | nil => rfl
  | cons x xs ih => simp [sortDesc, any_insertDesc, ih]

lemma length_insertDesc (x : TrackOut) (l : List TrackOut) :
    (insertDesc x l).length = l.length + 1 := by
  induction l with
  | nil => rfl
  | cons y ys ih =>
    by_cases h : y.estimatedDays ≤ x.estimatedDays
    · simp [insertDesc, h]
    · simp [insertDesc, h, ih]

lemma length_sortDesc (l : List TrackOut) :
    (sortDesc l).length = l.length := by
  induction l with
  | nil => rfl
  | cons x xs ih => simp [sortDesc, length_insertDesc, ih]

lemma perm_insertDesc (x : TrackOut) (l : List TrackOut) :
    (insertDesc x l).Perm (x :: l) := by
  induction l with
  | nil => simp [insertDesc]
  | cons y ys ih =>
    by_cases h : y.estimatedDays ≤ x.estimatedDays
    · simp [insertDesc, h]
    · simp only [insertDesc, h, if_neg, ite_false]
      exact (ih.cons y).trans (List.Perm.swap x y ys)

lemma perm_sortDesc (l : List TrackOut) : (sortDesc l).Perm l := by
  induction l with
  | nil => simp [sortDesc]
  | cons x xs ih =>
    exact (perm_insertDesc x (sortDesc xs)).trans (ih.cons x)

/-- The pairwise relation expressing "sorted descending, ties broken
by catalog position". -/
def sortedTieStable (a b : TrackOut) : Prop :=
  b.estimatedDays ≤ a.estimatedDays ∧
    (a.estimatedDays = b.estimatedDays → catalogIdx a.key < catalogIdx b.key)

lemma insertDesc_pairwise (x : TrackOut) (l : List TrackOut)
    (hl : l.Pairwise sortedTieStable)
    (hx : ∀ y ∈ l, catalogIdx x.key < catalogIdx y.key) :
    (insertDesc x l).Pairwise sortedTieStable := by
  induction l with
  | nil => simp [insertDesc, sortedTieStable]
  | cons y ys ih =>
    rw [List.pairwise_cons] at hl
    obtain ⟨hy, hys⟩ := hl
    by_cases h : y.estimatedDays ≤ x.estimatedDays
    · rw [insertDesc, if_pos h, List.pairwise_cons]
      constructor
      · intro z hz
        rcases List.mem_cons.mp hz with rfl | hz
        · exact ⟨h, fun _ => hx z (List.mem_cons_self _ _)⟩
        · obtain ⟨hz1, _⟩ := hy z hz
          exact ⟨le_trans hz1 h, fun _ => hx z (List.mem_cons_of_mem _ hz)⟩
      · rw [List.pairwise_cons]
        exact ⟨hy, hys⟩
    · rw [insertDesc, if_neg h, List.pairwise_cons]
      push_neg at h
      constructor
      · intro z hz
        rcases (mem_insertDesc x z ys).mp hz with rfl | hz
        · exact ⟨le_of_lt h, fun heq => absurd heq (ne_of_gt h)⟩
        · exact hy z hz
      · exact ih hys fun z hz => hx z (List.mem_cons_of_mem _ hz)

lemma sortDesc_pairwise (l : List TrackOut)
    (hl : l.Pairwise fun a b => catalogIdx a.key < catalogIdx b.key) :
    (sortDesc l).Pairwise sortedTieStable := by
  induction l with
  | nil => simp [sortDesc]
  | cons x xs ih =>
    rw [List.pairwise_cons] at hl
    obtain ⟨hx, hxs⟩ := hl
    exact insertDesc_pairwise x (sortDesc xs) (ih hxs)
      fun y hy => hx y ((perm_sortDesc xs).mem_iff.mp hy)

/- ## Lemmas about the rounding function -/

lemma fdiv_num_den_eq_floor (q : ℚ) : q.num.fdiv (q.den : ℤ) = ⌊q⌋ := by
  rw [Rat.floor_def, Int.fdiv_eq_ediv _ (by positivity)]

lemma rndHalfEven_intCast (n : ℤ) : rndHalfEven (n : ℚ) = n := by
  unfold rndHalfEven
  rw [fdiv_num_den_eq_floor, Int.floor_intCast]
  norm_num

lemma one_le_rndHalfEven (q : ℚ) (h : 1/2 < q) : 1 ≤ rndHalfEven q := by
  unfold rndHalfEven
  rw [fdiv_num_den_eq_floor]
  have h1 : (⌊q⌋ : ℚ) ≤ q := Int.floor_le q
  have h2 : q < ⌊q⌋ + 1 := Int.lt_floor_add_one q
  dsimp only
  split_ifs with hc1 hc2 hpar
  · -- fractional part below 1/2: the floor itself must be at least 1
    have hq : (0 : ℚ) < ⌊q⌋ := by linarith
    have h0 : (0 : ℤ) < ⌊q⌋ := by exact_mod_cast hq
    omega
  · -- rounding up: the floor is at least 0
    have hq : (-1 : ℚ) < ⌊q⌋ := by linarith
    have h0 : (-1 : ℤ) < ⌊q⌋ := by exact_mod_cast hq
    omega
  · -- exact tie with even floor: the floor is at least 1
    have hq : (0 : ℚ) < ⌊q⌋ := by linarith
    have h0 : (0 : ℤ) < ⌊q⌋ := by exact_mod_cast hq
    omega
  · -- exact tie with odd floor
    have hq : (0 : ℚ) < ⌊q⌋ := by linarith
    have h0 : (0 : ℤ) < ⌊q⌋ := by exact_mod_cast hq
    omega

lemma round1_pos (q : ℚ) (h : 1/20 < q) : 0 < round1 q := by
  unfold round1
  have h1 : (1 : ℚ)/2 < 10 * q := by linarith
  have h2 := one_le_rndHalfEven _ h1
  have h3 : (1 : ℚ) ≤ (rndHalfEven (10 * q) : ℚ) := by exact_mod_cast h2
  linarith

lemma round1_tenths (n : ℤ) : round1 ((n : ℚ)/10) = (n : ℚ)/10 := by
  unfold round1
  have h : (10 : ℚ) * ((n : ℚ)/10) = (n : ℚ) := by ring
  rw [h, rndHalfEven_intCast]

lemma round1_form (q : ℚ) : ∃ n : ℤ, round1 q = (n : ℚ)/10 :=
  ⟨rndHalfEven (10 * q), rfl⟩

/- ## Closed forms of the per-track day computations -/

lemma initDays_protocol (s : StyleProfile) :
    initDays s "protocol" = 10.0 * s.protocol_multiplier := rfl

lemma initDays_circuits (s : StyleProfile) :
    initDays s "circuits" = 12.0 * s.circuits_multiplier := rfl

lemma initDays_implementation (s : StyleProfile) :
    initDays s "implementation" = 14.0 * s.impl_multiplier := rfl

lemma initDays_infra (s : StyleProfile) :
    initDays s "infra" = 6.0 * s.infra_multiplier := rfl

lemma initDays_governance (s : StyleProfile) :
    initDays s "governance" = 4.0 * s.gov_multiplier := rfl

lemma featAdj_protocol (z f b g mc : Bool) (d : String → ℚ) :
    featAdj z f b g mc d "protocol" =
      d "protocol" * (if b then 1.20 else 1) * (if mc then 1.10 else 1) := by
  cases z <;> cases f <;> cases b <;> cases g <;> cases mc <;>
    simp [featAdj, stepZk, stepFhe, stepBridge, stepMultiChain, stepGovernance,
      updTD]

lemma featAdj_circuits (z f b g mc : Bool) (d : String → ℚ) :
    featAdj z f b g mc d "circuits" =
      d "circuits" * (if z then 1.25 else 1) * (if f then 1.25 else 1) := by
  cases z <;> cases f <;> cases b <;> cases g <;> cases mc <;>
    simp [featAdj, stepZk, stepFhe, stepBridge, stepMultiChain, stepGovernance,
      updTD]

lemma featAdj_implementation (z f b g mc : Bool) (d : String → ℚ) :
    featAdj z f b g mc d "implementation" =
      d "implementation" * (if b then 1.15 else 1) := by
  cases z <;> cases f <;> cases b <;> cases g <;> cases mc <;>
    simp [featAdj, stepZk, stepFhe, stepBridge, stepMultiChain, stepGovernance,
      updTD]

lemma featAdj_infra (z f b g mc : Bool) (d : String → ℚ) :
    featAdj z f b g mc d "infra" =
      d "infra" * (if f then 1.15 else 1) * (if mc then 1.20 else 1) := by
  cases z <;> cases f <;> cases b <;> cases g <;> cases mc <;>
    simp [featAdj, stepZk, stepFhe, stepBridge, stepMultiChain, stepGovernance,
      updTD]

lemma featAdj_governance (z f b g mc : Bool) (d : String → ℚ) :
    featAdj z f b g mc d "governance" =
      d "governance" * (if g then 1.5 else 1) := by
  cases z <;> cases f <;> cases b <;> cases g <;> cases mc <;>
    simp [featAdj, stepZk, stepFhe, stepBridge, stepMultiChain, stepGovernance,
      updTD]

/- ## Bounds on the scaling factors -/

lemma maturity_factor_ge (m : String) : 7/10 ≤ maturity_factor m := by
  unfold maturity_factor
  split_ifs <;> norm_num

lemma team_factor_ge (ts : ℤ) : 9/10 ≤ team_factor ts := by
  unfold team_factor
  split_ifs <;> norm_num

lemma if_factor_ge_one (c : Bool) (v : ℚ) (hv : 1 ≤ v) :
    1 ≤ if c then v else 1 := by
  cases c <;> simp [hv]

lemma style_mults_ge_one (s : StyleProfile) (hs : s ∈ STYLES) :
    1 ≤ s.protocol_multiplier ∧ 1 ≤ s.circuits_multiplier ∧
    1 ≤ s.impl_multiplier ∧ 1 ≤ s.infra_multiplier ∧ 1 ≤ s.gov_multiplier := by
  fin_cases hs <;> norm_num [aztec, zama, soundness]

lemma le_prod5 (a b c d e : ℚ) (ha : 4 ≤ a) (hb : 1 ≤ b) (hc : 1 ≤ c)
    (hd : 7/10 ≤ d) (he : 9/10 ≤ e) : 63/25 ≤ a * b * c * d * e := by
  have h1 : 4 ≤ a * b := by nlinarith
  have h2 : 4 ≤ a * b * c := by nlinarith
  have h3 : 14/5 ≤ a * b * c * d := by nlinarith
  nlinarith

lemma le_prod4 (a b d e : ℚ) (ha : 4 ≤ a) (hb : 1 ≤ b)
    (hd : 7/10 ≤ d) (he : 9/10 ≤ e) : 63/25 ≤ a * b * d * e := by
  have h1 : 4 ≤ a * b := by nlinarith
  have h3 : 14/5 ≤ a * b * d := by nlinarith
  nlinarith

/-- Lower bound on every track's unrounded day count, for styles from the
catalog and arbitrary flags, maturity and team size factors. -/
lemma track_days_lower (style : StyleProfile) (hs : style ∈ STYLES)
    (z f b g mc : Bool) (mf tf : ℚ) (hmf : 7/10 ≤ mf) (htf : 9/10 ≤ tf)
    (k : String) (hk : k ∈ key_order) :
    63/25 ≤ track_days style z f b g mc mf tf k := by
  obtain ⟨h1, h2, h3, h4, h5⟩ := style_mults_ge_one style hs
  fin_cases hk
  · rw [track_days, featAdj_protocol, initDays_protocol]
    exact le_prod5 _ _ _ _ _ (by nlinarith) (if_factor_ge_one _ _ (by norm_num))
      (if_factor_ge_one _ _ (by norm_num)) hmf htf
  · rw [track_days, featAdj_circuits, initDays_circuits]
    exact le_prod5 _ _ _ _ _ (by nlinarith) (if_factor_ge_one _ _ (by norm_num))
      (if_factor_ge_one _ _ (by norm_num)) hmf htf
  · rw [track_days, featAdj_implementation, initDays_implementation]
    exact le_prod4 _ _ _ _ (by nlinarith) (if_factor_ge_one _ _ (by norm_num))
      hmf htf
  · rw [track_days, featAdj_infra, initDays_infra]
    exact le_prod5 _ _ _ _ _ (by nlinarith) (if_factor_ge_one _ _ (by norm_num))
      (if_factor_ge_one _ _ (by norm_num)) hmf htf
  · rw [track_days, featAdj_governance, initDays_governance]
    exact le_prod4 _ _ _ _ (by nlinarith) (if_factor_ge_one _ _ (by norm_num))
      hmf htf

/- ## Projections of the computed plan -/

lemma plan_tracks_eq (style : StyleProfile) (z f b g mc : Bool) (ts : ℤ)
    (mat : String) :
    (compute_audit_plan style z f b g mc ts mat).tracks =
      sortDesc (tracksOut (track_days style z f b g mc (maturity_factor mat)
        (team_factor ts))) := rfl

lemma plan_total_eq (style : StyleProfile) (z f b g mc : Bool) (ts : ℤ)
    (mat : String) :
    (compute_audit_plan style z f b g mc ts mat).totalEstimatedDays =
      round1 (((tracksOut (track_days style z f b g mc (maturity_factor mat)
        (team_factor ts))).map fun t => t.estimatedDays).sum) := rfl

lemma plan_suggested_eq (style : StyleProfile) (z f b g mc : Bool) (ts : ℤ)
    (mat : String) :
    (compute_audit_plan style z f b g mc ts mat).suggestedOrder =
      key_order.filter fun k =>
        (sortDesc (tracksOut (track_days style z f b g mc
          (maturity_factor mat) (team_factor ts)))).any fun t => t.key = k := rfl

lemma tracksOut_map_key (d : String → ℚ) :
    (tracksOut d).map (fun t => t.key) = key_order := rfl

lemma tracksOut_sum_tenths (d : String → ℚ) :
    ∃ n : ℤ, ((tracksOut d).map fun t => t.estimatedDays).sum = (n : ℚ)/10 := by
  refine ⟨rndHalfEven (10 * d "protocol") + rndHalfEven (10 * d "circuits") +
    rndHalfEven (10 * d "implementation") + rndHalfEven (10 * d "infra") +
    rndHalfEven (10 * d "governance"), ?_⟩
  simp [tracksOut, TRACKS, round1]
  ring

/-- Well-formedness of the output track list: the keys are a permutation of
the catalog keys, there are five entries, and every rounded estimate is
positive. Holds for catalog styles, any flags, any team size and any
maturity string. -/
lemma plan_tracks_wf (style : StyleProfile) (hs : style ∈ STYLES)
    (z f b g mc : Bool) (ts : ℤ) (mat : String) :
    ((compute_audit_plan style z f b g mc ts mat).tracks.map
      fun t => t.key).Perm key_order ∧
    (compute_audit_plan style z f b g mc ts mat).tracks.length = 5 ∧
    ∀ t ∈ (compute_audit_plan style z f b g mc ts mat).tracks,
      0 < t.estimatedDays := by
  rw [plan_tracks_eq]
  refine ⟨?_, ?_, ?_⟩
  · have hperm := (perm_sortDesc (tracksOut (track_days style z f b g mc
      (maturity_factor mat) (team_factor ts)))).map fun t => t.key
    rwa [tracksOut_map_key] at hperm
  · rw [length_sortDesc]
    rfl
  · intro t ht
    have ht' : t ∈ tracksOut (track_days style z f b g mc
        (maturity_factor mat) (team_factor ts)) :=
      (perm_sortDesc _).mem_iff.mp ht
    rw [tracksOut, List.mem_map] at ht'
    obtain ⟨tr, htr, rfl⟩ := ht'
    apply round1_pos
    have hlow := track_days_lower style hs z f b g mc _ _
      (maturity_factor_ge mat) (team_factor_ge ts) tr.key ?_
    · linarith
    · fin_cases htr <;> simp [key_order]

/- ## The claims -/

/-- C1: for every input, totalEstimatedDays equals the sum of the five
already-rounded per-track estimatedDays values, that sum itself rounded to
one decimal place. -/
theorem total_is_round_of_rounded_sum (style : StyleProfile)
    (z f b g mc : Bool) (ts : ℤ) (mat : String) :
    (compute_audit_plan style z f b g mc ts mat).totalEstimatedDays =
      round1 (((compute_audit_plan style z f b g mc ts mat).tracks.map
        fun t => t.estimatedDays).sum) := by
  rw [plan_tracks_eq, plan_total_eq, sum_sortDesc]

/-- C10: the final rounding of the total is an identity: the sum of the
rounded per-track values is a multiple of 1/10, rounding it returns it
unchanged, and totalEstimatedDays equals the plain sum of the rounded
per-track values. -/
theorem round_total_identity (style : StyleProfile)
    (z f b g mc : Bool) (ts : ℤ) (mat : String) :
    round1 (((compute_audit_plan style z f b g mc ts mat).tracks.map
        fun t => t.estimatedDays).sum) =
      ((compute_audit_plan style z f b g mc ts mat).tracks.map
        fun t => t.estimatedDays).sum ∧
    (compute_audit_plan style z f b g mc ts mat).totalEstimatedDays =
      ((compute_audit_plan style z f b g mc ts mat).tracks.map
        fun t => t.estimatedDays).sum := by
  obtain ⟨n, hn⟩ := tracksOut_sum_tenths (track_days style z f b g mc
    (maturity_factor mat) (team_factor ts))
  have hsum : ((compute_audit_plan style z f b g mc ts mat).tracks.map
      fun t => t.estimatedDays).sum = (n : ℚ)/10 := by
    rw [plan_tracks_eq, sum_sortDesc, hn]
  constructor
  · rw [hsum, round1_tenths]
  · rw [plan_total_eq, hn, round1_tenths, hsum]

/-- C7: suggestedOrder is always the fixed catalog sequence, independent of
the estimatedDays values and of the sort. -/
theorem suggested_order_fixed (style : StyleProfile)
    (z f b g mc : Bool) (ts : ℤ) (mat : String) :
    (compute_audit_plan style z f b g mc ts mat).suggestedOrder = key_order := by
  rw [plan_suggested_eq]
  simp [any_sortDesc, tracksOut, TRACKS, key_order, List.filter]

/-- C2: for catalog styles, any flags, any team size and the enumerated
maturity values, the track list has exactly the five catalog keys with no
duplicates or omissions and every estimatedDays is strictly positive. -/
theorem tracks_wellformed (style : StyleProfile) (hs : style ∈ STYLES)
    (mat : String) (hm : mat ∈ ["idea", "prototype", "mainnet"])
    (z f b g mc : Bool) (ts : ℤ) :
    ((compute_audit_plan style z f b g mc ts mat).tracks.map
      fun t => t.key).Perm key_order ∧
    (compute_audit_plan style z f b g mc ts mat).tracks.length = 5 ∧
    ∀ t ∈ (compute_audit_plan style z f b g mc ts mat).tracks,
      0 < t.estimatedDays :=
  plan_tracks_wf style hs z f b g mc ts mat

/-- Witness for C2 at a concrete input. -/
theorem tracks_wellformed_witness :
    ((compute_audit_plan aztec true true true true true 5 "prototype").tracks.map
      fun t => t.key).Perm key_order ∧
    (compute_audit_plan aztec true true true true true 5 "prototype").tracks.length = 5 ∧
    ∀ t ∈ (compute_audit_plan aztec true true true true true 5 "prototype").tracks,
      0 < t.estimatedDays :=
  tracks_wellformed aztec (by simp [STYLES]) "prototype" (by simp)
    true true true true true 5

/-- C3: every track's days are multiplied by a maturity factor determined
only by the maturity value: idea gives 0.7, prototype 1.0, mainnet 1.2, and
any unrecognized maturity string falls back to factor 1.0 rather than
failing. -/
theorem maturity_scaling (mat : String) (h1 : mat ≠ "idea")
    (h2 : mat ≠ "prototype") (h3 : mat ≠ "mainnet") :
    maturity_factor "idea" = 0.7 ∧ maturity_factor "prototype" = 1.0 ∧
    maturity_factor "mainnet" = 1.2 ∧ maturity_factor mat = 1.0 ∧
    (∀ (style : StyleProfile) (z f b g mc : Bool) (tf : ℚ) (m2 k : String),
      track_days style z f b g mc (maturity_factor m2) tf k =
        track_days style z f b g mc 1 tf k * maturity_factor m2) ∧
    (∀ (style : StyleProfile) (z f b g mc : Bool) (ts : ℤ) (m2 : String),
      (compute_audit_plan style z f b g mc ts m2).tracks =
        sortDesc (tracksOut (track_days style z f b g mc (maturity_factor m2)
          (team_factor ts)))) := by
  refine ⟨rfl, rfl, rfl, ?_, ?_, ?_⟩
  · unfold maturity_factor
    rw [if_neg h1, if_neg h2, if_neg h3]
  · intro style z f b g mc tf m2 k
    unfold track_days
    ring
  · intro style z f b g mc ts m2
    rfl

/-- Witness for C3 at the unrecognized maturity string "testnet". -/
theorem maturity_scaling_witness :
    maturity_factor "idea" = 0.7 ∧ maturity_factor "prototype" = 1.0 ∧
    maturity_factor "mainnet" = 1.2 ∧ maturity_factor "testnet" = 1.0 ∧
    (∀ (style : StyleProfile) (z f b g mc : Bool) (tf : ℚ) (m2 k : String),
      track_days style z f b g mc (maturity_factor m2) tf k =
        track_days style z f b g mc 1 tf k * maturity_factor m2) ∧
    (∀ (style : StyleProfile) (z f b g mc : Bool) (ts : ℤ) (m2 : String),
      (compute_audit_plan style z f b g mc ts m2).tracks =
        sortDesc (tracksOut (track_days style z f b g mc (maturity_factor m2)
          (team_factor ts)))) :=
  maturity_scaling "testnet" (by decide) (by decide) (by decide)

/-- C4: the team-size factor is 0.9 for teamSize at most 3, 1.0 for 4 to 8
inclusive, 1.1 for 9 and above, and the same factor multiplies all tracks
uniformly. -/
theorem team_scaling (ts1 ts2 ts3 : ℤ) (h1 : ts1 ≤ 3) (h2 : 4 ≤ ts2)
    (h2b : ts2 ≤ 8) (h3 : 9 ≤ ts3) :
    team_factor ts1 = 0.9 ∧ team_factor ts2 = 1.0 ∧ team_factor ts3 = 1.1 ∧
    (∀ (style : StyleProfile) (z f b g mc : Bool) (mf tf : ℚ) (k : String),
      track_days style z f b g mc mf tf k =
        track_days style z f b g mc mf 1 k * tf) ∧
    (∀ (style : StyleProfile) (z f b g mc : Bool) (ts : ℤ) (mat : String),
      (compute_audit_plan style z f b g mc ts mat).tracks =
        sortDesc (tracksOut (track_days style z f b g mc (maturity_factor mat)
          (team_factor ts)))) := by
  refine ⟨?_, ?_, ?_, ?_, ?_⟩
  · unfold team_factor
    rw [if_pos h1]
  · unfold team_factor
    rw [if_neg (by omega), if_pos h2b]
  · unfold team_factor
    rw [if_neg (by omega), if_neg (by omega)]
  · intro style z f b g mc mf tf k
    unfold track_days
    ring
  · intro style z f b g mc ts mat
    rfl

/-- Witness for C4 at team sizes 2, 5 and 12. -/
theorem team_scaling_witness :
    team_factor 2 = 0.9 ∧ team_factor 5 = 1.0 ∧ team_factor 12 = 1.1 ∧
    (∀ (style : StyleProfile) (z f b g mc : Bool) (mf tf : ℚ) (k : String),
      track_days style z f b g mc mf tf k =
        track_days style z f b g mc mf 1 k * tf) ∧
    (∀ (style : StyleProfile) (z f b g mc : Bool) (ts : ℤ) (mat : String),
      (compute_audit_plan style z f b g mc ts mat).tracks =
        sortDesc (tracksOut (track_days style z f b g mc (maturity_factor mat)
          (team_factor ts)))) :=
  team_scaling 2 5 12 (by decide) (by decide) (by decide) (by decide)

/-- C5: when both usesZk and usesFhe are set, the combined feature
contribution to the circuits track is exactly 1.25 × 1.25 = 1.5625: the two
adjustments compound multiplicatively. -/
theorem zk_fhe_compound (style : StyleProfile) (b g mc : Bool) (mf tf : ℚ) :
    (1.25 : ℚ) * 1.25 = 1.5625 ∧
    track_days style true true b g mc mf tf "circuits" =
      1.5625 * track_days style false false b g mc mf tf "circuits" := by
  constructor
  · norm_num
  · simp only [track_days, featAdj_circuits]
    norm_num
    ring

/-- C8: the five feature adjustments are order-independent: each pair of
adjustment steps commutes, and each track's pre-maturity days equal its
style-scaled base days times the product of the feature factors that target
it. -/
theorem feature_adjustments_commute :
    (∀ (style : StyleProfile) (z f b g mc : Bool),
      featAdj z f b g mc (initDays style) "protocol" =
        initDays style "protocol" * (if b then 1.20 else 1) *
          (if mc then 1.10 else 1) ∧
      featAdj z f b g mc (initDays style) "circuits" =
        initDays style "circuits" * (if z then 1.25 else 1) *
          (if f then 1.25 else 1) ∧
      featAdj z f b g mc (initDays style) "implementation" =
        initDays style "implementation" * (if b then 1.15 else 1) ∧
      featAdj z f b g mc (initDays style) "infra" =
        initDays style "infra" * (if f then 1.15 else 1) *
          (if mc then 1.20 else 1) ∧
      featAdj z f b g mc (initDays style) "governance" =
        initDays style "governance" * (if g then 1.5 else 1)) ∧
    (∀ (z f b g mc : Bool) (d : String → ℚ),
      stepZk z (stepFhe f d) = stepFhe f (stepZk z d) ∧
      stepZk z (stepBridge b d) = stepBridge b (stepZk z d) ∧
      stepZk z (stepMultiChain mc d) = stepMultiChain mc (stepZk z d) ∧
      stepZk z (stepGovernance g d) = stepGovernance g (stepZk z d) ∧
      stepFhe f (stepBridge b d) = stepBridge b (stepFhe f d) ∧
      stepFhe f (stepMultiChain mc d) = stepMultiChain mc (stepFhe f d) ∧
      stepFhe f (stepGovernance g d) = stepGovernance g (stepFhe f d) ∧
      stepBridge b (stepMultiChain mc d) = stepMultiChain mc (stepBridge b d) ∧
      stepBridge b (stepGovernance g d) = stepGovernance g (stepBridge b d) ∧
      stepMultiChain mc (stepGovernance g d) =
        stepGovernance g (stepMultiChain mc d)) := by
  constructor
  · intro style z f b g mc
    exact ⟨featAdj_protocol z f b g mc _, featAdj_circuits z f b g mc _,
      featAdj_implementation z f b g mc _, featAdj_infra z f b g mc _,
      featAdj_governance z f b g mc _⟩
  · intro z f b g mc d
    refine ⟨?_, ?_, ?_, ?_, ?_, ?_, ?_, ?_, ?_, ?_⟩ <;>
      · funext x
        cases z <;> cases f <;> cases b <;> cases g <;> cases mc <;>
          simp [stepZk, stepFhe, stepBridge, stepMultiChain, stepGovernance,
            updTD] <;>
          split_ifs <;> simp_all <;> ring

/-- C9: for every teamSize at most 0 the plan computation does not fail: it
applies the same team factor 0.9 as for teams of size 1 to 3 and returns a
well-formed plan. -/
theorem nonpositive_team_size (ts : ℤ) (hts : ts ≤ 0) (style : StyleProfile)
    (hs : style ∈ STYLES) (z f b g mc : Bool) (mat : String) :
    team_factor ts = 0.9 ∧ team_factor ts = team_factor 2 ∧
    (compute_audit_plan style z f b g mc ts mat).tracks =
      (compute_audit_plan style z f b g mc 2 mat).tracks ∧
    (compute_audit_plan style z f b g mc ts mat).totalEstimatedDays =
      (compute_audit_plan style z f b g mc 2 mat).totalEstimatedDays ∧
    ((compute_audit_plan style z f b g mc ts mat).tracks.map
      fun t => t.key).Perm key_order ∧
    ∀ t ∈ (compute_audit_plan style z f b g mc ts mat).tracks,
      0 < t.estimatedDays := by
  have h09 : team_factor ts = 0.9 := by
    unfold team_factor
    rw [if_pos (by omega)]
  have h2 : team_factor 2 = 0.9 := by
    unfold team_factor
    rw [if_pos (by omega)]
  have heq : team_factor ts = team_factor 2 := by rw [h09, h2]
  obtain ⟨hperm, _, hpos⟩ := plan_tracks_wf style hs z f b g mc ts mat
  refine ⟨h09, heq, ?_, ?_, hperm, hpos⟩
  · rw [plan_tracks_eq, plan_tracks_eq, heq]
  · rw [plan_total_eq, plan_total_eq, heq]

/-- Witness for C9 at teamSize = -4 with the aztec style. -/
theorem nonpositive_team_size_witness :
    team_factor (-4) = 0.9 ∧ team_factor (-4) = team_factor 2 ∧
    (compute_audit_plan aztec false true false true false (-4) "idea").tracks =
      (compute_audit_plan aztec false true false true false 2 "idea").tracks ∧
    (compute_audit_plan aztec false true false true false (-4) "idea").totalEstimatedDays =
      (compute_audit_plan aztec false true false true false 2 "idea").totalEstimatedDays ∧
    ((compute_audit_plan aztec false true false true false (-4) "idea").tracks.map
      fun t => t.key).Perm key_order ∧
    ∀ t ∈ (compute_audit_plan aztec false true false true false (-4) "idea").tracks,
      0 < t.estimatedDays :=
  nonpositive_team_size (-4) (by decide) aztec (by simp [STYLES])
    false true false true false "idea"

/-- The unsorted track list is strictly increasing in catalog position. -/
lemma tracksOut_catalog_pairwise (d : String → ℚ) :
    (tracksOut d).Pairwise fun a b => catalogIdx a.key < catalogIdx b.key := by
  simp [tracksOut, TRACKS, List.pairwise_cons]
  refine ⟨⟨?_, ?_, ?_, ?_⟩, ⟨?_, ?_, ?_⟩, ⟨?_, ?_⟩, ?_⟩ <;> decide

/-- C6: the returned track list is sorted in descending order of
estimatedDays, and ties keep the original catalog order (the sort is stable
with respect to insertion order). -/
theorem tracks_sorted_stable (style : StyleProfile) (z f b g mc : Bool)
    (ts : ℤ) (mat : String) :
    (compute_audit_plan style z f b g mc ts mat).tracks.Pairwise
      sortedTieStable := by
  rw [plan_tracks_eq]
  exact sortDesc_pairwise _ (tracksOut_catalog_pairwise _)

end AuditPlanner
